import Mathlib

/-!
Shallow embedding of the QNEET repository's service worker (`sw.js`) and
local persistence layer (`js/storage.js`).

Modelling conventions:
- JavaScript strings become `String`; response bodies are kept as `String`
  (byte-level identity of bodies is string equality).
- The Cache Storage API becomes an association list of named caches, each an
  association list from full request URL to a stored response snapshot.
- Promise chains become total functions; a promise that can reject becomes a
  function into `Except`/an outcome carrying an explicit error constructor.
  A `.catch` callback that returns normally converts a rejection into a
  fulfilled promise, exactly as in JS.
- The network is a parameter `net : Request → Option Response` (`none` is a
  failed fetch); the worker's own origin is a parameter `so`.
- IndexedDB object stores become lists of records in insertion order
  (record keys in this app are `Date.now()` timestamps, so IndexedDB's
  key order coincides with insertion order); `add` rejects with a
  constraint error on a duplicate primary key, `put` upserts,
  `delete` removes by key.
- The storage layer awaits raw `IDBRequest` objects. An `IDBRequest` is not
  a thenable, so `await request` yields the request object itself, not its
  eventual `result`: read helpers that then call array methods on it throw
  a `TypeError`, and helpers that return it resolve with the request
  handle. The model keeps both faces: the real (broken) functions, and
  separately named row-level definitions stating what the JSDoc above each
  function documents it to return.
-/

/-! ## JavaScript string `includes` -/

/-- `leadsWith pat l` is true when `pat` is an initial segment of `l`. -/
def leadsWith [BEq α] : List α → List α → Bool
  | [], _ => true
  | _ :: _, [] => false
  | a :: as, b :: bs => a == b && leadsWith as bs

/-- `occursIn pat l` is true when `pat` occurs contiguously inside `l`. -/
def occursIn [BEq α] (pat : List α) : List α → Bool
  | [] => pat.isEmpty
  | b :: rest => leadsWith pat (b :: rest) || occursIn pat rest

/-- JavaScript `s.includes(pat)` on strings. -/
def jsIncludes (s pat : String) : Bool :=
  occursIn pat.data s.data

/-! ## Service worker data model (`sw.js`) -/

/-- A response snapshot: HTTP status, the `Response.type` tag
(`"basic"`, `"cors"`, `"opaque"`, `"default"`, ...), and the body bytes. -/
structure Response where
  status : Nat
  rtype : String
  body : String
deriving DecidableEq

/-- The parts of a `Request` the service worker inspects: method, URL origin
and path, and the value of the `Accept` header (`none` when the header is
absent, in which case `request.headers.get` returns `null`). -/
structure Request where
  method : String
  origin : String
  pathname : String
  accept : Option String
deriving DecidableEq

/-- The full URL of a request, as used for cache keys. -/
def Request.url (req : Request) : String := req.origin ++ req.pathname

/-- One named cache: URL-keyed response snapshots. -/
abbrev CacheObj := List (String × Response)

/-- The Cache Storage: named caches in creation order. -/
abbrev CacheStore := List (String × CacheObj)

/-- `cache.match` within a single cache object. -/
def cacheLookup : CacheObj → String → Option Response
  | [], _ => none
  | e :: rest, u => if e.1 = u then some e.2 else cacheLookup rest u

/-- `caches.match(u)`: first match scanning caches in order. -/
def cachesMatch : CacheStore → String → Option Response
  | [], _ => none
  | c :: rest, u =>
    match cacheLookup c.2 u with
    | some r => some r
    | none => cachesMatch rest u

/-- `cache.put`: overwrite the entry for the URL or append a new one. -/
def cachePutEntry : CacheObj → String → Response → CacheObj
  | [], u, r => [(u, r)]
  | e :: rest, u, r => if e.1 = u then (u, r) :: rest else e :: cachePutEntry rest u r

/-- `caches.open(n)`: create an empty cache named `n` unless present. -/
def cachesOpen (cs : CacheStore) (n : String) : CacheStore :=
  if cs.any (fun c => decide (c.1 = n)) then cs else cs ++ [(n, [])]

/-- Write one entry into the cache named `n`. -/
def cachesPut (cs : CacheStore) (n u : String) (r : Response) : CacheStore :=
  cs.map (fun c => if c.1 = n then (c.1, cachePutEntry c.2 u r) else c)

/-- Names of the caches present. -/
def cacheNames (cs : CacheStore) : List String := cs.map (·.1)

/-- `const CACHE_VERSION = 'qneet-v1.2.0'` from `sw.js`. -/
def CACHE_VERSION : String := "qneet-v1.2.0"

/-- `const CACHE_NAME` from `sw.js`. -/
def CACHE_NAME : String := "qneet-cache-" ++ CACHE_VERSION

/-- `const STATIC_ASSETS` from `sw.js`: the fixed install manifest. -/
def STATIC_ASSETS : List String :=
  ["/", "/index.html", "/css/styles.css", "/css/dark-theme.css",
   "/js/main.js", "/js/pdf-viewer.js", "/js/storage.js", "/js/utils.js",
   "/data/resources.json", "/data/categories.json", "/manifest.json",
   "/assets/icons/icon-192.png", "/assets/icons/icon-512.png"]

/-- `const DYNAMIC_ASSETS = []` from `sw.js`: the dynamic-bypass list. -/
def DYNAMIC_ASSETS : List String := []

/-- The request `cache.addAll` issues for a manifest path. -/
def assetRequest (so p : String) : Request :=
  ⟨"GET", so, p, none⟩

/-- `cache.addAll(paths)`: fetch every path; reject (`none`) if any fetch
fails or yields a non-2xx response, otherwise the list of entries to store.
Population is all-or-nothing per the Cache API. -/
def addAllFetch (so : String) (net : Request → Option Response) :
    List String → Option (List (String × Response))
  | [] => some []
  | p :: rest =>
    match net (assetRequest so p) with
    | none => none
    | some r =>
      if 200 ≤ r.status ∧ r.status < 300 then
        match addAllFetch so net rest with
        | none => none
        | some es => some ((so ++ p, r) :: es)
      else none

/-- Write a batch of entries into a cache object. -/
def cachePutList (c : CacheObj) (es : List (String × Response)) : CacheObj :=
  es.foldl (fun acc e => cachePutEntry acc e.1 e.2) c

/-- Outcome of the install event: the resulting cache storage, whether
`self.skipWaiting()` was requested, and whether the promise handed to
`event.waitUntil` fulfilled (installation completes iff it did). -/
structure InstallOutcome where
  caches : CacheStore
  skipWaitingRequested : Bool
  installCompleted : Bool
deriving DecidableEq

/-- The `install` listener of `sw.js`:
`caches.open(CACHE_NAME).then(cache => cache.addAll(STATIC_ASSETS))
  .then(() => self.skipWaiting()).catch(error => console.error(...))`.
The trailing `.catch` returns normally, so the promise given to
`event.waitUntil` fulfills on both branches: a failed `addAll` is logged,
`skipWaiting` is skipped, and the install nonetheless completes with the
freshly opened cache left unpopulated. -/
def installHandler (so : String) (net : Request → Option Response)
    (cs : CacheStore) : InstallOutcome :=
  let cs1 := cachesOpen cs CACHE_NAME
  match addAllFetch so net STATIC_ASSETS with
  | some entries =>
    ⟨cs1.map (fun c => if c.1 = CACHE_NAME then (c.1, cachePutList c.2 entries) else c),
     true, true⟩
  | none => ⟨cs1, false, true⟩

/-- The `activate` listener of `sw.js`: delete every cache whose name is not
`CACHE_NAME`, then claim clients (claiming does not touch the store). -/
def activateHandler (cs : CacheStore) : CacheStore :=
  cs.filter (fun c => decide (c.1 = CACHE_NAME))

/-- What a fetch event produced: no `respondWith` at all (browser default),
a response, a `respondWith` promise that fulfilled with `undefined`
(a network error for the page), or a `respondWith` promise that rejected
with a thrown error. -/
inductive FetchResult where
  | passthrough
  | responded (r : Response)
  | respondedUndefined
  | threw (e : String)
deriving DecidableEq

/-- Outcome of dispatching a fetch event. -/
structure FetchOutcome where
  result : FetchResult
  caches : CacheStore
  networkUsed : Bool
deriving DecidableEq

/-- The first (caching) `fetch` listener of `sw.js`. Non-GET requests and
requests whose path contains a bypass-list substring return early with no
`respondWith`; same-origin requests are served cache-first; on a cache miss
the network response is stored when it has status 200 and type `"basic"`;
on a network failure the handler reads the `Accept` header — when the header
is absent `request.headers.get` is `null` and `.includes` throws a
`TypeError` — and falls back to the cached `/index.html` for HTML clients. -/
def fetchListener1 (dynamicAssets : List String) (so : String)
    (net : Request → Option Response) (cs : CacheStore) (req : Request) :
    FetchOutcome :=
  if req.method ≠ "GET" then ⟨.passthrough, cs, false⟩
  else if dynamicAssets.any (fun a => jsIncludes req.pathname a) then
    ⟨.passthrough, cs, false⟩
  else if req.origin = so then
    match cachesMatch cs req.url with
    | some cached => ⟨.responded cached, cs, false⟩
    | none =>
      match net req with
      | some nr =>
        if nr.status = 200 ∧ nr.rtype = "basic" then
          ⟨.responded nr, cachesPut (cachesOpen cs CACHE_NAME) CACHE_NAME req.url nr, true⟩
        else ⟨.responded nr, cs, true⟩
      | none =>
        match req.accept with
        | none => ⟨.threw "TypeError", cs, true⟩
        | some a =>
          if jsIncludes a "text/html" then
            match cachesMatch cs (so ++ "/index.html") with
            | some fallback => ⟨.responded fallback, cs, true⟩
            | none => ⟨.respondedUndefined, cs, true⟩
          else ⟨.respondedUndefined, cs, true⟩
  else ⟨.passthrough, cs, false⟩

/-- The synthetic fallback response built by the second `fetch` listener:
`new Response('External resource unavailable', status 503)`. -/
def externalFallbackResponse : Response :=
  ⟨503, "default", "External resource unavailable"⟩

/-- The second `fetch` listener of `sw.js`: any request whose URL contains
`'external-domain.com'` is answered with `fetch(request)` or, on failure,
with the synthetic 503 response. It never writes to any cache. -/
def fetchListener2 (net : Request → Option Response) (cs : CacheStore)
    (req : Request) : FetchOutcome :=
  if jsIncludes req.url "external-domain.com" then
    match net req with
    | some r => ⟨.responded r, cs, true⟩
    | none => ⟨.responded externalFallbackResponse, cs, true⟩
  else ⟨.passthrough, cs, false⟩

/-- Dispatch of one fetch event through both registered listeners: the second
listener only runs usefully when the first one did not call `respondWith`. -/
def handleFetch (dynamicAssets : List String) (so : String)
    (net : Request → Option Response) (cs : CacheStore) (req : Request) :
    FetchOutcome :=
  let o1 := fetchListener1 dynamicAssets so net cs req
  match o1.result with
  | .passthrough => fetchListener2 net o1.caches req
  | _ => o1

/-! ## Push notification handling (`sw.js`) -/

/-- Contents of `event.data` for a push event: a payload that parses as JSON
with optional `title`/`body`/`icon` fields (a field is `none` when absent or
falsy, matching the JS `||` defaulting), or a payload whose bytes are not
valid JSON, in which case `event.data.json()` throws. -/
inductive PushMessageData where
  | parsed (title body icon : Option String)
  | malformed (raw : String)
deriving DecidableEq

/-- The notification the push listener shows. -/
structure Notification where
  title : String
  body : String
  icon : String
  badge : String
deriving DecidableEq

/-- The default notification of the push listener. -/
def defaultNotification : Notification :=
  ⟨"QNEET Update", "New resources are available!",
   "/assets/icons/icon-192.png", "/assets/icons/icon-192.png"⟩

/-- The `push` listener of `sw.js`: defaults are set up, then, when
`event.data` is present, `event.data.json()` is called with no surrounding
try/catch — a malformed payload therefore throws out of the listener and no
notification is shown; a parsed payload overrides each field via `||`. -/
def pushHandler (d : Option PushMessageData) : Except String Notification :=
  match d with
  | none => .ok defaultNotification
  | some (.parsed t b i) =>
    .ok ⟨t.getD defaultNotification.title, b.getD defaultNotification.body,
         i.getD defaultNotification.icon, defaultNotification.badge⟩
  | some (.malformed _) => .error "SyntaxError"

/-- Number of notifications the push listener displays for one push event. -/
def notificationsShown (r : Except String Notification) : Nat :=
  match r with
  | .ok _ => 1
  | .error _ => 0

/-! ## Local persistence store (`js/storage.js`) -/

/-- A row of the `resources` object store (keyPath `id`). -/
structure Resource where
  id : Nat
  title : String
  category : String
  subject : String
deriving DecidableEq

/-- A row of the `favorites` object store (keyPath `id`, the resource id):
`{ id: resourceId, date: new Date().toISOString() }`. -/
structure Favorite where
  id : Nat
  date : String
deriving DecidableEq

/-- A row of the `notes` object store (keyPath `id`). -/
structure Note where
  id : Nat
  resourceId : Nat
  content : String
  date : String
deriving DecidableEq

/-- A row of the `downloads` object store (keyPath `id`). -/
structure Download where
  id : Nat
  resourceId : Nat
  title : String
  progress : Nat
deriving DecidableEq

/-- A row of the `settings` object store (keyPath `key`). -/
structure Setting where
  key : String
  value : String
deriving DecidableEq

/-- The error of a rejected IndexedDB request (`add` on an existing key). -/
inductive DBError where
  | constraintError
deriving DecidableEq

/-- `IDBObjectStore.add`: reject when a record with the same key exists,
otherwise insert the record. -/
def idbAdd [DecidableEq κ] (key : α → κ) (l : List α) (x : α) :
    Except DBError (List α) :=
  if l.any (fun y => decide (key y = key x)) then .error .constraintError
  else .ok (l ++ [x])

/-- `IDBObjectStore.delete`: remove any record with the given key. -/
def idbDelete [DecidableEq κ] (key : α → κ) (l : List α) (k : κ) : List α :=
  l.filter (fun y => decide (key y ≠ k))

/-- A sequence of `store.add` calls that halts at the first rejection, as in
the `for ... await store.add(...)` loops of `importData`. -/
def idbAddList [DecidableEq κ] (key : α → κ) (l : List α) :
    List α → Except DBError (List α)
  | [] => .ok l
  | x :: rest => do
    let l1 ← idbAdd key l x
    idbAddList key l1 rest

/-- The five object stores of `QNEETDatabase`. -/
structure Store where
  resources : List Resource
  favorites : List Favorite
  notes : List Note
  downloads : List Download
  settings : List Setting
deriving DecidableEq

namespace QNEETStorage

/-- `addFavorite(resourceId)`: `store.add({ id: resourceId, date: now })`.
`now` stands for `new Date().toISOString()`. The `Except` value is the fate
of the add transaction: `.ok` with the row appended when the key is fresh,
a constraint error (transaction aborted, store unchanged) on a duplicate.
(The caller's promise resolves in both cases, since the `await` yields the
`IDBRequest` before the transaction settles.) -/
def addFavorite (s : Store) (resourceId : Nat) (now : String) :
    Except DBError Store :=
  (idbAdd Favorite.id s.favorites ⟨resourceId, now⟩).map
    (fun l => { s with favorites := l })

/-- The store state once the `addFavorite` transaction has settled: the row
is added when the key was fresh; on a duplicate key the add request errors,
the transaction aborts, and the store is unchanged. -/
def favoritesAfterAdd (s : Store) (resourceId : Nat) (now : String) : Store :=
  match addFavorite s resourceId now with
  | .ok s2 => s2
  | .error _ => s

/-- `removeFavorite(resourceId)`: `store.delete(resourceId)`. -/
def removeFavorite (s : Store) (resourceId : Nat) : Store :=
  { s with favorites := idbDelete Favorite.id s.favorites resourceId }

/-- The stored favorite ids: the row-level data in the `favorites` store,
i.e. what `getFavorites()` is documented to return (its JSDoc promises an
array of favorite resource ids). -/
def favoriteIds (s : Store) : List Nat :=
  s.favorites.map (·.id)

/-- An `IDBRequest` object, as seen by code that awaits it: `await` applied
to an `IDBRequest` yields the request object itself (a request is not a
thenable), not the rows in its eventual `result`. -/
inductive IDBRequestHandle where
  | handle
deriving DecidableEq

/-- `getFavorites()`: `const favorites = await store.getAll();
return favorites.map(fav => fav.id)`. The `await` yields the `IDBRequest`
object, which has no `map` method, so the call throws a `TypeError` and the
returned promise always rejects — it never resolves with the stored ids
(`favoriteIds`), contradicting the JSDoc above the function. -/
def getFavorites (_s : Store) : Except String (List Nat) :=
  .error "TypeError"

/-- `isFavorite(resourceId)`: `!!(await store.get(resourceId))`. The
awaited value is the `IDBRequest` object, which is truthy, so the function
resolves `true` for every id regardless of the store contents. -/
def isFavorite (_s : Store) (_resourceId : Nat) : Bool :=
  true

/-- The stored notes of one resource, in store order: the rows the
`resourceId` index holds for that id, i.e. what `getNotes(resourceId)` is
documented to return. -/
def notesFor (s : Store) (resourceId : Nat) : List Note :=
  s.notes.filter (fun n => decide (n.resourceId = resourceId))

/-- `getNotes(resourceId)`: `return index.getAll(resourceId)` — the
function resolves with the `IDBRequest` object itself, not with the rows
(`notesFor`). -/
def getNotes (_s : Store) (_resourceId : Nat) : IDBRequestHandle :=
  .handle

/-- One step of the grouping loop in `getAllNotes`: append the note to its
resource's bucket, creating the bucket on first sight of the resource id. -/
def addNoteToGroups (gs : List (Nat × List Note)) (n : Note) :
    List (Nat × List Note) :=
  if gs.any (fun g => decide (g.1 = n.resourceId)) then
    gs.map (fun g => if g.1 = n.resourceId then (g.1, g.2 ++ [n]) else g)
  else gs ++ [(n.resourceId, [n])]

/-- Every stored note, grouped by owning resource id: the `notesByResource`
object the forEach loop of `getAllNotes` builds from the rows (buckets in
first-occurrence order, which does not affect any per-resource sequence).
This is the grouping `getAllNotes()` is documented to return. -/
def groupedNotes (s : Store) : List (Nat × List Note) :=
  s.notes.foldl addNoteToGroups []

/-- `getAllNotes()`: `const allNotes = await store.getAll();
allNotes.forEach(...)`. The `await` yields the `IDBRequest` object, which
has no `forEach` method, so the call throws a `TypeError` and the returned
promise always rejects — the grouping (`groupedNotes`) is never produced. -/
def getAllNotes (_s : Store) : Except String (List (Nat × List Note)) :=
  .error "TypeError"

/-- `getDownloads()`: `return store.getAll()` — resolves with the
`IDBRequest` object itself, not with the stored download rows. -/
def getDownloads (_s : Store) : IDBRequestHandle :=
  .handle

/-- `addDownload(download)`. -/
def addDownload (s : Store) (d : Download) : Except DBError Store :=
  (idbAdd Download.id s.downloads d).map (fun l => { s with downloads := l })

/-- The documented snapshot format consumed by `importData` (and promised
by `exportData`). Each field is `none` when absent from the JSON object
(the `if (data.X)` guards in `importData` then skip that collection). -/
structure Snapshot where
  resources : Option (List Resource)
  favorites : Option (List Nat)
  notes : Option (List (Nat × List Note))
  downloads : Option (List Download)
  settings : Option (List Setting)
deriving DecidableEq

/-- The snapshot `exportData()` is documented to produce (and would
produce, were each `IDBRequest` awaited to its `result`): all five
collections aggregated, notes grouped by owning resource id. -/
def intendedExport (s : Store) : Snapshot :=
  ⟨some s.resources, some (favoriteIds s), some (groupedNotes s),
   some s.downloads, some s.settings⟩

/-- `exportData()`: `data.resources = await this.getAllResources()` stores
the `IDBRequest` handle, then `data.favorites = await this.getFavorites()`
rejects with the `TypeError` thrown inside `getFavorites`, so `exportData`
always rejects and never yields a snapshot. -/
def exportData (_s : Store) : Except String Snapshot :=
  .error "TypeError"

/-- `clearAllData()`: `store.clear()` on each of the five stores. -/
def clearAllData (_s : Store) : Store :=
  ⟨[], [], [], [], []⟩

/-- The notes of a snapshot's grouped-notes object, flattened in the order
the nested `for (resourceId in data.notes) for (note of ...)` loops visit
them. -/
def flattenGroups (gs : List (Nat × List Note)) : List Note :=
  (gs.map (·.2)).flatten

/-- One `if (data.X) { for ... await store.add(...) }` block of
`importData`: when the snapshot field is absent the store keeps its
just-cleared contents, otherwise each snapshot record is re-inserted in
sequence, halting at the first rejected insert. -/
def importCollection [DecidableEq κ] (key : α → κ) (cleared : List α)
    (o : Option (List α)) : Except DBError (List α) :=
  match o with
  | none => .ok cleared
  | some l => idbAddList key cleared l

/-- `importData(data)`: clear everything, then re-insert each present
collection with `store.add`, halting at the first rejected insert. `now`
stands for `new Date().toISOString()` used for re-created favorites;
snapshot favorites are bare resource ids and are re-wrapped, and snapshot
notes arrive grouped by resource id and are re-inserted bucket by bucket
(the nested loops visit `flattenGroups` of the grouping). -/
def importData (data : Snapshot) (s₀ : Store) (now : String) :
    Except DBError Store := do
  let s := clearAllData s₀
  let rs ← importCollection Resource.id s.resources data.resources
  let favs ← importCollection Favorite.id s.favorites
    (data.favorites.map (List.map (fun i => (⟨i, now⟩ : Favorite))))
  let ns ← importCollection Note.id s.notes (data.notes.map flattenGroups)
  let ds ← importCollection Download.id s.downloads data.downloads
  let sets ← importCollection Setting.key s.settings data.settings
  .ok ⟨rs, favs, ns, ds, sets⟩

/-- The snapshot with every collection field absent. -/
def emptySnapshot : Snapshot := ⟨none, none, none, none, none⟩

end QNEETStorage

/-! ## Cache storage lemmas -/

theorem cachesMatch_eq_none_iff (cs : CacheStore) (u : String) :
    cachesMatch cs u = none ↔ ∀ c ∈ cs, cacheLookup c.2 u = none := by
  induction cs with
  | nil => simp [cachesMatch]
  | cons c rest ih =>
    constructor
    · intro hnone d hd
      rcases h : cacheLookup c.2 u with _ | r
      · rcases List.mem_cons.1 hd with rfl | hd2
        · exact h
        · have hrest : cachesMatch rest u = none := by
            simpa [cachesMatch, h] using hnone
          exact (ih.1 hrest) d hd2
      · simp [cachesMatch, h] at hnone
    · intro hall
      have h := hall c (List.mem_cons_self c rest)
      simp only [cachesMatch, h]
      exact ih.2 (fun d hd => hall d (List.mem_cons_of_mem c hd))

theorem cacheLookup_putEntry_self (c : CacheObj) (u : String) (r : Response) :
    cacheLookup (cachePutEntry c u r) u = some r := by
  induction c with
  | nil => simp [cachePutEntry, cacheLookup]
  | cons e rest ih =>
    by_cases h : e.1 = u
    · simp [cachePutEntry, h, cacheLookup]
    · simp [cachePutEntry, h, cacheLookup, ih]

theorem mem_cacheNames_cachesOpen (cs : CacheStore) (n : String) :
    n ∈ cacheNames (cachesOpen cs n) := by
  unfold cachesOpen
  by_cases h : cs.any (fun c => decide (c.1 = n)) = true
  · rw [if_pos h]
    rcases List.any_eq_true.1 h with ⟨c, hc, hcn⟩
    exact List.mem_map.2 ⟨c, hc, (of_decide_eq_true hcn).symm ▸ rfl⟩
  · rw [if_neg h]
    unfold cacheNames
    simp

theorem cachesMatch_cachesPut_self (cs : CacheStore) (n u : String) (r : Response)
    (hall : ∀ c ∈ cs, cacheLookup c.2 u = none) (hmem : n ∈ cacheNames cs) :
    cachesMatch (cachesPut cs n u r) u = some r := by
  induction cs with
  | nil => simp [cacheNames] at hmem
  | cons c rest ih =>
    by_cases h : c.1 = n
    · simp only [cachesPut, List.map_cons, if_pos h, cachesMatch,
        cacheLookup_putEntry_self]
    · have hm : n ∈ cacheNames rest := by
        rcases List.mem_map.1 hmem with ⟨d, hd, hdn⟩
        rcases List.mem_cons.1 hd with rfl | hd
        · exact absurd hdn h
        · exact List.mem_map.2 ⟨d, hd, hdn⟩
      have hl := hall c (List.mem_cons_self c rest)
      simp only [cachesPut, List.map_cons, if_neg h, cachesMatch, hl]
      exact ih (fun d hd => hall d (List.mem_cons_of_mem c hd)) hm

theorem cacheLookup_cachesOpen_none (cs : CacheStore) (n u : String)
    (hall : ∀ c ∈ cs, cacheLookup c.2 u = none) :
    ∀ c ∈ cachesOpen cs n, cacheLookup c.2 u = none := by
  unfold cachesOpen
  by_cases h : cs.any (fun c => decide (c.1 = n)) = true
  · rw [if_pos h]; exact hall
  · rw [if_neg h]
    intro c hc
    rcases List.mem_append.1 hc with hc | hc
    · exact hall c hc
    · rcases List.mem_singleton.1 hc with rfl
      rfl

/-! ## Claim C1 -/

/-- The worker's own origin, used to build concrete scenarios. -/
def so0 : String := "https://qneet.app"

/-- A network where every fetch fails (offline). -/
def netFail : Request → Option Response := fun _ => none

/-- A cache storage holding only an old cache generation. -/
def csOld : CacheStore := [("qneet-cache-qneet-v1.0.0", [])]

/-- C1, counterexample. The claim says a failed manifest fetch makes the
install transition fail entirely, with no new cache generation created. In
the code the failure is swallowed by the final `.catch`, so with an offline
network — where every manifest fetch fails — the install completes, a new
cache generation named `CACHE_NAME` exists, and only `skipWaiting` is
skipped. -/
theorem install_failure_not_aborting_cex :
    addAllFetch so0 netFail STATIC_ASSETS = none ∧
    (installHandler so0 netFail csOld).installCompleted = true ∧
    CACHE_NAME ∈ cacheNames (installHandler so0 netFail csOld).caches ∧
    (installHandler so0 netFail csOld).skipWaitingRequested = false := by
  refine ⟨rfl, rfl, ?_, rfl⟩
  decide

/-- C1, amended: if any manifest fetch fails, `cache.addAll` rejects and
stores nothing, and `skipWaiting` is not requested; but the rejection is
caught and only logged, so the install transition nonetheless completes,
leaving the newly opened cache generation present and unpopulated.
`skipWaiting` is requested exactly when every manifest fetch succeeds. -/
theorem install_catch_semantics (so : String) (net : Request → Option Response)
    (cs : CacheStore) :
    (installHandler so net cs).installCompleted = true ∧
    ((installHandler so net cs).skipWaitingRequested = true ↔
      (addAllFetch so net STATIC_ASSETS).isSome = true) ∧
    (addAllFetch so net STATIC_ASSETS = none →
      (installHandler so net cs).caches = cachesOpen cs CACHE_NAME) := by
  rcases h : addAllFetch so net STATIC_ASSETS with _ | es <;>
    simp [installHandler, h]

/-- C1 witness: the amended install semantics evaluated on the offline
network and the old cache store. -/
theorem install_catch_semantics_witness :
    (installHandler so0 netFail csOld).caches = cachesOpen csOld CACHE_NAME :=
  (install_catch_semantics so0 netFail csOld).2.2 rfl

/-! ## Claim C2 -/

/-- C2: after the activate handler runs, exactly one cache generation
remains, the one named with the current version tag — provided the current
generation exists (install opens it before activation) and cache names are
unique (the Cache Storage API keys caches by name). -/
theorem activate_leaves_single_generation (cs : CacheStore)
    (hnd : (cacheNames cs).Nodup) (hmem : CACHE_NAME ∈ cacheNames cs) :
    cacheNames (activateHandler cs) = [CACHE_NAME] := by
  induction cs with
  | nil => simp [cacheNames] at hmem
  | cons c rest ih =>
    have hnd2 : (cacheNames rest).Nodup := (List.nodup_cons.1 hnd).2
    by_cases h : c.1 = CACHE_NAME
    · have hnot : CACHE_NAME ∉ cacheNames rest := h ▸ (List.nodup_cons.1 hnd).1
      have hfil : activateHandler rest = [] := by
        apply List.filter_eq_nil_iff.2
        intro d hd hdn
        exact hnot (List.mem_map.2 ⟨d, hd, of_decide_eq_true hdn⟩)
      have hcons : activateHandler (c :: rest) = c :: activateHandler rest := by
        simp [activateHandler, List.filter_cons, h]
      rw [hcons, hfil]
      simp [cacheNames, h]
    · have hm : CACHE_NAME ∈ cacheNames rest := by
        rcases List.mem_map.1 hmem with ⟨d, hd, hdn⟩
        rcases List.mem_cons.1 hd with rfl | hd
        · exact absurd hdn h
        · exact List.mem_map.2 ⟨d, hd, hdn⟩
      simpa [activateHandler, List.filter_cons, h] using ih hnd2 hm

/-- C2 witness: activating on a store holding one stale generation and the
current one leaves exactly the current generation. -/
theorem activate_leaves_single_generation_witness :
    CACHE_NAME ∈ cacheNames (csOld ++ [(CACHE_NAME, [])]) ∧
    cacheNames (activateHandler (csOld ++ [(CACHE_NAME, [])])) = [CACHE_NAME] :=
  ⟨by decide, activate_leaves_single_generation _ (by decide) (by decide)⟩

/-! ## Claims C3 and C4 -/

/-- C3: on a same-origin GET miss where the network returns status 200 with
type `"basic"`, the handler responds with that response, uses the network,
and writes the response into the current cache generation, so a second
request for the same URL — under any later network, even offline — is
answered with the identical response without touching the network; and any
same-origin GET whose URL is already cached is answered with the cached
snapshot immediately, without the network and without changing the store. -/
theorem fetch_caches_success_and_serves_hits
    (dyn : List String) (so : String) (net net2 : Request → Option Response)
    (cs cs3 : CacheStore) (req : Request) (r c : Response)
    (hm : req.method = "GET")
    (hb : ∀ x ∈ dyn, jsIncludes req.pathname x = false)
    (ho : req.origin = so)
    (hmiss : cachesMatch cs req.url = none)
    (hnet : net req = some r)
    (hst : r.status = 200) (hty : r.rtype = "basic")
    (hhit : cachesMatch cs3 req.url = some c) :
    (handleFetch dyn so net cs req).result = .responded r ∧
    (handleFetch dyn so net cs req).networkUsed = true ∧
    (handleFetch dyn so net2 (handleFetch dyn so net cs req).caches req).result
      = .responded r ∧
    (handleFetch dyn so net2 (handleFetch dyn so net cs req).caches req).networkUsed
      = false ∧
    (handleFetch dyn so net2 cs3 req).result = .responded c ∧
    (handleFetch dyn so net2 cs3 req).networkUsed = false ∧
    (handleFetch dyn so net2 cs3 req).caches = cs3 := by
  have hb2 : dyn.any (fun x => jsIncludes req.pathname x) = false :=
    List.any_eq_false.2 (fun x hx => by simp [hb x hx])
  have e1 : fetchListener1 dyn so net cs req =
      ⟨.responded r, cachesPut (cachesOpen cs CACHE_NAME) CACHE_NAME req.url r, true⟩ := by
    simp [fetchListener1, hm, hb2, ho, hmiss, hnet, hst, hty]
  have hall : ∀ d ∈ cs, cacheLookup d.2 req.url = none :=
    (cachesMatch_eq_none_iff cs req.url).1 hmiss
  have hall2 := cacheLookup_cachesOpen_none cs CACHE_NAME req.url hall
  have hmem2 := mem_cacheNames_cachesOpen cs CACHE_NAME
  have hhit2 := cachesMatch_cachesPut_self (cachesOpen cs CACHE_NAME)
    CACHE_NAME req.url r hall2 hmem2
  have e2 : fetchListener1 dyn so net2
      (cachesPut (cachesOpen cs CACHE_NAME) CACHE_NAME req.url r) req =
      ⟨.responded r, cachesPut (cachesOpen cs CACHE_NAME) CACHE_NAME req.url r, false⟩ := by
    simp [fetchListener1, hm, hb2, ho, hhit2]
  have e3 : fetchListener1 dyn so net2 cs3 req = ⟨.responded c, cs3, false⟩ := by
    simp [fetchListener1, hm, hb2, ho, hhit]
  simp [handleFetch, e1, e2, e3]

/-- A network that answers every request with a 200 basic response whose
body names the path. -/
def netBody : Request → Option Response :=
  fun r => some ⟨200, "basic", "BODY:" ++ r.pathname⟩

/-- A same-origin GET request used in the C3 witness. -/
def reqPage : Request := ⟨"GET", so0, "/js/app.js", some "*/*"⟩

/-- The response `netBody` gives `reqPage`. -/
def rPage : Response := ⟨200, "basic", "BODY:/js/app.js"⟩

/-- A cache store that already holds a snapshot for `reqPage`. -/
def csHit : CacheStore := [(CACHE_NAME, [(so0 ++ "/js/app.js", ⟨200, "basic", "SNAP"⟩)])]

/-- C3 witness: a concrete miss-then-hit run, with the second request served
from the cache while the network is entirely offline, and a concrete
cache-hit served without the network. -/
theorem fetch_caches_success_and_serves_hits_witness :
    (handleFetch [] so0 netBody [] reqPage).result = .responded rPage ∧
    (handleFetch [] so0 netFail (handleFetch [] so0 netBody [] reqPage).caches
      reqPage).result = .responded rPage ∧
    (handleFetch [] so0 netFail (handleFetch [] so0 netBody [] reqPage).caches
      reqPage).networkUsed = false ∧
    (handleFetch [] so0 netFail csHit reqPage).result
      = .responded ⟨200, "basic", "SNAP"⟩ ∧
    (handleFetch [] so0 netFail csHit reqPage).networkUsed = false := by
  have h := fetch_caches_success_and_serves_hits [] so0 netBody netFail []
    csHit reqPage rPage ⟨200, "basic", "SNAP"⟩ rfl
    (fun x hx => absurd hx (List.not_mem_nil x)) rfl rfl rfl rfl rfl (by decide)
  exact ⟨h.1, h.2.2.1, h.2.2.2.1, h.2.2.2.2.1, h.2.2.2.2.2.1⟩

/-- C4: a same-origin GET whose network fetch fails, whose `Accept` header
mentions `text/html`, and whose URL is not cached, is answered with the
cached root document `/index.html` (present in the cache after a successful
install, since it is in the manifest). -/
theorem fetch_offline_html_fallback
    (dyn : List String) (so : String) (net : Request → Option Response)
    (cs : CacheStore) (req : Request) (a : String) (idx : Response)
    (hm : req.method = "GET")
    (hb : ∀ x ∈ dyn, jsIncludes req.pathname x = false)
    (ho : req.origin = so)
    (hmiss : cachesMatch cs req.url = none)
    (hnet : net req = none)
    (hacc : req.accept = some a)
    (hhtml : jsIncludes a "text/html" = true)
    (hidx : cachesMatch cs (so ++ "/index.html") = some idx) :
    (handleFetch dyn so net cs req).result = .responded idx := by
  have hb2 : dyn.any (fun x => jsIncludes req.pathname x) = false :=
    List.any_eq_false.2 (fun x hx => by simp [hb x hx])
  have e1 : fetchListener1 dyn so net cs req = ⟨.responded idx, cs, true⟩ := by
    simp [fetchListener1, hm, hb2, ho, hmiss, hnet, hacc, hhtml, hidx]
  simp [handleFetch, e1]

/-- The cached root document used in the C4 witness. -/
def idxResp : Response := ⟨200, "basic", "INDEX-HTML"⟩

/-- A cache store holding only the root document. -/
def csIdx : CacheStore := [(CACHE_NAME, [(so0 ++ "/index.html", idxResp)])]

/-- An HTML navigation request to an uncached path. -/
def reqNav : Request := ⟨"GET", so0, "/some/route", some "text/html,application/xhtml+xml"⟩

/-- C4 witness: with the network offline and `/index.html` cached, an HTML
navigation to an uncached route is answered with the cached root document. -/
theorem fetch_offline_html_fallback_witness :
    (handleFetch [] so0 netFail csIdx reqNav).result = .responded idxResp :=
  fetch_offline_html_fallback [] so0 netFail csIdx reqNav
    "text/html,application/xhtml+xml" idxResp rfl
    (fun x hx => absurd hx (List.not_mem_nil x)) rfl (by decide) rfl rfl
    (by decide) (by decide)

/-! ## Claim C5 -/

/-- A POST request whose URL contains `external-domain.com`. -/
def reqPostExt : Request := ⟨"POST", "https://external-domain.com", "/api/submit", some "*/*"⟩

/-- C5, counterexample. The claim says every non-GET request is passed
through untouched. The second `fetch` listener of `sw.js` intercepts any
request whose URL contains `'external-domain.com'` regardless of method:
offline, a POST to such a URL is answered with a synthetic 503 response
instead of being passed through. -/
theorem bypass_not_untouched_cex :
    reqPostExt.method ≠ "GET" ∧
    (handleFetch DYNAMIC_ASSETS so0 netFail [] reqPostExt).result
      = .responded externalFallbackResponse ∧
    FetchResult.responded externalFallbackResponse ≠ .passthrough := by
  refine ⟨by decide, ?_, by decide⟩
  decide

/-- C5, amended: a non-GET or bypass-listed request is ignored by the
caching fetch listener, so no cache entry is ever written for it and the
cache storage is unchanged; it is passed through untouched unless its URL
contains `'external-domain.com'`, in which case the second fetch listener
intercepts it (substituting a synthetic 503 when the network fails). -/
theorem bypass_requests_never_cached
    (dyn : List String) (so : String) (net : Request → Option Response)
    (cs : CacheStore) (req : Request)
    (h : req.method ≠ "GET" ∨ dyn.any (fun a => jsIncludes req.pathname a) = true) :
    (handleFetch dyn so net cs req).caches = cs ∧
    (jsIncludes req.url "external-domain.com" = false →
      (handleFetch dyn so net cs req).result = .passthrough) := by
  have e1 : fetchListener1 dyn so net cs req = ⟨.passthrough, cs, false⟩ := by
    rcases h with h | h
    · simp [fetchListener1, h]
    · by_cases hm : req.method = "GET"
      · simp [fetchListener1, hm, h]
      · simp [fetchListener1, hm]
  have e2 : ∀ hx : jsIncludes req.url "external-domain.com" = false,
      fetchListener2 net cs req = ⟨.passthrough, cs, false⟩ := by
    intro hx
    simp [fetchListener2, hx]
  constructor
  · by_cases hx : jsIncludes req.url "external-domain.com" = true
    · rcases hn : net req with _ | r <;> simp [handleFetch, e1, fetchListener2, hx, hn]
    · simp [handleFetch, e1, e2 (by simpa using hx)]
  · intro hx
    simp [handleFetch, e1, e2 hx]

/-- A non-GET request to the app's own origin. -/
def reqPostLocal : Request := ⟨"POST", so0, "/api/track", some "*/*"⟩

/-- C5 witness: a POST to the app's own origin leaves the cache storage
unchanged and is passed through untouched. -/
theorem bypass_requests_never_cached_witness :
    (handleFetch DYNAMIC_ASSETS so0 netFail csIdx reqPostLocal).caches = csIdx ∧
    (handleFetch DYNAMIC_ASSETS so0 netFail csIdx reqPostLocal).result
      = .passthrough := by
  have h := bypass_requests_never_cached DYNAMIC_ASSETS so0 netFail csIdx
    reqPostLocal (Or.inl (by decide))
  exact ⟨h.1, h.2 (by decide)⟩

/-! ## Claim C6 -/

/-- C6, counterexample. The claim says a malformed payload is never fatal
and exactly one notification is shown per push event. `event.data.json()`
is called without a try/catch, so a payload that is not valid JSON throws
out of the listener and zero notifications are shown. -/
theorem push_malformed_payload_cex :
    pushHandler (some (.malformed "not-json")) = .error "SyntaxError" ∧
    notificationsShown (pushHandler (some (.malformed "not-json"))) = 0 :=
  ⟨rfl, rfl⟩

/-- C6, amended: an absent payload and absent (or falsy) fields fall back to
the documented defaults and exactly one notification is displayed; but a
payload whose bytes are not valid JSON throws uncaught out of the push
listener (the `event.data.json()` call has no try/catch) and no
notification is displayed. -/
theorem push_defaults_and_malformed :
    (∀ t b i : Option String,
      pushHandler (some (.parsed t b i)) =
        .ok ⟨t.getD "QNEET Update", b.getD "New resources are available!",
             i.getD "/assets/icons/icon-192.png", "/assets/icons/icon-192.png"⟩ ∧
      notificationsShown (pushHandler (some (.parsed t b i))) = 1) ∧
    (pushHandler none = .ok defaultNotification ∧
      notificationsShown (pushHandler none) = 1) ∧
    (∀ raw : String,
      pushHandler (some (.malformed raw)) = .error "SyntaxError" ∧
      notificationsShown (pushHandler (some (.malformed raw))) = 0) :=
  ⟨fun t b i => ⟨rfl, rfl⟩, ⟨rfl, rfl⟩, fun raw => ⟨rfl, rfl⟩⟩

/-! ## Claim C7 -/

/-- Whether a fetch outcome is a thrown error. -/
def FetchResult.isThrow : FetchResult → Bool
  | .threw _ => true
  | _ => false

theorem fetchListener2_no_throw (net : Request → Option Response)
    (cs : CacheStore) (req : Request) :
    (fetchListener2 net cs req).result.isThrow = false := by
  unfold fetchListener2
  by_cases hx : jsIncludes req.url "external-domain.com" = true
  · rcases hn : net req with _ | r <;> simp [hx, hn, FetchResult.isThrow]
  · simp [(by simpa using hx : jsIncludes req.url "external-domain.com" = false),
      FetchResult.isThrow]

theorem fetchListener1_no_throw_of_accept (dyn : List String) (so : String)
    (net : Request → Option Response) (cs : CacheStore) (req : Request)
    (ha : req.accept ≠ none) :
    (fetchListener1 dyn so net cs req).result.isThrow = false := by
  rcases hacc : req.accept with _ | a
  · exact absurd hacc ha
  unfold fetchListener1
  by_cases hm : req.method ≠ "GET"
  · simp [hm, FetchResult.isThrow]
  by_cases hb : dyn.any (fun x => jsIncludes req.pathname x) = true
  · simp [hm, hb, FetchResult.isThrow]
  by_cases ho : req.origin = so
  · rcases hc : cachesMatch cs req.url with _ | cached
    · rcases hn : net req with _ | nr
      · by_cases hhtml : jsIncludes a "text/html" = true
        · rcases hf : cachesMatch cs (so ++ "/index.html") with _ | fb <;>
            simp [hm, hb, ho, hc, hn, hacc, hhtml, hf, FetchResult.isThrow]
        · simp [hm, hb, ho, hc, hn, hacc,
            (by simpa using hhtml : jsIncludes a "text/html" = false),
            FetchResult.isThrow]
      · by_cases hok : nr.status = 200 ∧ nr.rtype = "basic" <;>
          simp [hm, hb, ho, hc, hn, hok, FetchResult.isThrow]
    · simp [hm, hb, ho, hc, FetchResult.isThrow]
  · simp [hm, hb, ho, FetchResult.isThrow]

/-- A same-origin GET request carrying no `Accept` header. -/
def reqNoAccept : Request := ⟨"GET", so0, "/data/resources.json", none⟩

/-- C7, counterexample. The claim says every asynchronous step in the core
operations converts a rejection into a safe fallback or an aborted
transition. In the network-failure path the handler evaluates
`request.headers.get('Accept').includes(...)`; with no `Accept` header the
`get` is `null`, so the recovery path itself throws a `TypeError` and the
`respondWith` promise rejects instead of producing a fallback. -/
theorem fetch_missing_accept_throws_cex :
    (handleFetch DYNAMIC_ASSETS so0 netFail [] reqNoAccept).result
      = .threw "TypeError" := by
  decide

/-- C7, amended: the install chain always completes (its rejections are
caught), and fetch handling never throws for a request that carries an
`Accept` header; but a same-origin GET with no `Accept` header whose
network fetch fails makes the failure-recovery path itself throw a
`TypeError` (and a malformed push payload throws uncaught), so not every
asynchronous step converts a rejection into a safe fallback. -/
theorem fetch_no_throw_with_accept (dyn : List String) (so : String)
    (net : Request → Option Response) (cs : CacheStore) (req : Request)
    (ha : req.accept ≠ none) :
    (handleFetch dyn so net cs req).result.isThrow = false ∧
    (installHandler so net cs).installCompleted = true := by
  refine ⟨?_, (install_catch_semantics so net cs).1⟩
  have h1 := fetchListener1_no_throw_of_accept dyn so net cs req ha
  unfold handleFetch
  rcases hr : (fetchListener1 dyn so net cs req).result with _ | r | _ | e
  · simp only [hr]
    exact fetchListener2_no_throw net (fetchListener1 dyn so net cs req).caches req
  · simp only [hr]; rfl
  · simp only [hr]; rfl
  · rw [hr] at h1
    simp [FetchResult.isThrow] at h1

/-- C7 witness: the amended no-throw statement evaluated on a concrete
offline HTML navigation that carries an `Accept` header. -/
theorem fetch_no_throw_with_accept_witness :
    (handleFetch DYNAMIC_ASSETS so0 netFail csIdx reqNav).result.isThrow = false ∧
    (installHandler so0 netFail csIdx).installCompleted = true :=
  fetch_no_throw_with_accept DYNAMIC_ASSETS so0 netFail csIdx reqNav (by decide)

/-! ## Claim C8 -/

/-- C8 (code bug): the claim states `getFavorites`'s documented behavior,
but the implementation always rejects — `await store.getAll()` yields the
`IDBRequest` object, so `favorites.map` throws a `TypeError`, and
`getFavorites()` never resolves with any list, contradicting its own JSDoc.
At the level of the stored rows the claim's intent holds: once the
`addFavorite(x)` transaction settles the stored favorite ids include `x`,
and after `removeFavorite(x)` they do not. -/
theorem favorites_add_remove_code_bug (s : Store) (x : Nat) (now : String) :
    QNEETStorage.getFavorites s = .error "TypeError" ∧
    x ∈ QNEETStorage.favoriteIds (QNEETStorage.favoritesAfterAdd s x now) ∧
    x ∉ QNEETStorage.favoriteIds (QNEETStorage.removeFavorite s x) := by
  refine ⟨rfl, ?_, ?_⟩
  · rcases ha : QNEETStorage.addFavorite s x now with e | s2
    · have hfa : QNEETStorage.favoritesAfterAdd s x now = s := by
        simp [QNEETStorage.favoritesAfterAdd, ha]
      rw [hfa]
      unfold QNEETStorage.addFavorite idbAdd at ha
      by_cases hc :
          s.favorites.any (fun y => decide (y.id = (⟨x, now⟩ : Favorite).id)) = true
      · rcases List.any_eq_true.1 hc with ⟨f, hf, hfx⟩
        exact List.mem_map.2 ⟨f, hf, of_decide_eq_true hfx⟩
      · rw [if_neg hc] at ha
        simp [Except.map] at ha
    · have hfa : QNEETStorage.favoritesAfterAdd s x now = s2 := by
        simp [QNEETStorage.favoritesAfterAdd, ha]
      rw [hfa]
      unfold QNEETStorage.addFavorite idbAdd at ha
      by_cases hc :
          s.favorites.any (fun y => decide (y.id = (⟨x, now⟩ : Favorite).id)) = true
      · rw [if_pos hc] at ha
        simp [Except.map] at ha
      · rw [if_neg hc] at ha
        simp only [Except.map, Except.ok.injEq] at ha
        subst ha
        simp [QNEETStorage.favoriteIds]
  · simp only [QNEETStorage.favoriteIds, QNEETStorage.removeFavorite, idbDelete,
      List.mem_map, not_exists]
    rintro f ⟨hf, hfx⟩
    have := List.mem_filter.1 hf
    simp [hfx] at this

/-! ## Grouping lemmas for the notes round trip -/

namespace QNEETStorage

/-- The bucket (if any) for resource id `r` in a grouped-notes object. -/
def lookupGroup (r : Nat) (gs : List (Nat × List Note)) : Option (List Note) :=
  (gs.find? (fun g => decide (g.1 = r))).map (·.2)

/-- The bucket for resource id `r`, empty when the id has no bucket. -/
def groupNotes (r : Nat) (gs : List (Nat × List Note)) : List Note :=
  (lookupGroup r gs).getD []

/-- Well-formedness of a grouped-notes object: bucket keys are unique and
every note sits in the bucket of its own resource id. -/
def GWF (gs : List (Nat × List Note)) : Prop :=
  (gs.map (·.1)).Nodup ∧ ∀ g ∈ gs, ∀ n ∈ g.2, n.resourceId = g.1

theorem lookupGroup_update (gs : List (Nat × List Note)) (k r : Nat) (n : Note) :
    lookupGroup r (gs.map (fun g => if g.1 = k then (g.1, g.2 ++ [n]) else g)) =
      if r = k then (lookupGroup r gs).map (fun l => l ++ [n])
      else lookupGroup r gs := by
  have hcomp : ((fun g : Nat × List Note => decide (g.1 = r)) ∘
      (fun g => if g.1 = k then (g.1, g.2 ++ [n]) else g)) =
      (fun g : Nat × List Note => decide (g.1 = r)) := by
    funext g
    by_cases h : g.1 = k <;> simp [h]
  rcases hf : gs.find? (fun g => decide (g.1 = r)) with _ | g0
  · simp [lookupGroup, List.find?_map, hcomp, hf]
  · have hp0 := List.find?_some hf
    have hp : g0.1 = r := of_decide_eq_true hp0
    by_cases hrk : r = k
    · have hg0k : g0.1 = k := hp.trans hrk
      rw [if_pos hrk]
      simp [lookupGroup, List.find?_map, hcomp, hf, hg0k]
    · have hg0k : ¬ g0.1 = k := fun h => hrk (hp.symm.trans h)
      rw [if_neg hrk]
      simp [lookupGroup, List.find?_map, hcomp, hf, hg0k]

theorem lookupGroup_append_single (gs : List (Nat × List Note))
    (x : Nat × List Note) (r : Nat) :
    lookupGroup r (gs ++ [x]) =
      (lookupGroup r gs).or (if x.1 = r then some x.2 else none) := by
  rcases hf : gs.find? (fun g => decide (g.1 = r)) with _ | g0 <;>
    by_cases hx : x.1 = r <;>
      simp [lookupGroup, List.find?_append, List.find?_cons, hf, hx]

theorem lookupGroup_eq_none_of_not_mem (gs : List (Nat × List Note)) (r : Nat)
    (h : r ∉ gs.map (·.1)) : lookupGroup r gs = none := by
  unfold lookupGroup
  rw [List.find?_eq_none.2]
  · rfl
  · intro g hg hgr
    exact h (List.mem_map.2 ⟨g, hg, of_decide_eq_true hgr⟩)


theorem groupNotes_addNote (gs : List (Nat × List Note)) (n : Note) (r : Nat) :
    groupNotes r (addNoteToGroups gs n) =
      groupNotes r gs ++ (if n.resourceId = r then [n] else []) := by
  unfold addNoteToGroups
  by_cases hany : gs.any (fun g => decide (g.1 = n.resourceId)) = true
  · rw [if_pos hany]
    unfold groupNotes
    rw [lookupGroup_update]
    by_cases hrk : r = n.resourceId
    · rw [if_pos hrk, if_pos hrk.symm]
      obtain ⟨g, hg, hgk⟩ := List.any_eq_true.1 hany
      have hsome : (gs.find? (fun x => decide (x.1 = r))).isSome = true :=
        List.find?_isSome.2 ⟨g, hg, by
          simp [of_decide_eq_true hgk, hrk]⟩
      rcases ho : gs.find? (fun x => decide (x.1 = r)) with _ | g0
      · rw [ho] at hsome; simp at hsome
      · simp [lookupGroup, ho]
    · rw [if_neg hrk, if_neg (fun h => hrk h.symm)]
      simp
  · rw [if_neg hany]
    unfold groupNotes
    rw [lookupGroup_append_single]
    by_cases hrk : n.resourceId = r
    · have hnone : lookupGroup r gs = none := by
        apply lookupGroup_eq_none_of_not_mem
        intro hmem
        rcases List.mem_map.1 hmem with ⟨g, hg, hgr⟩
        have hfalse := List.any_eq_false.1 (Bool.not_eq_true _ ▸ hany) g hg
        exact hfalse (by simp [hgr, hrk])
      rw [hnone]
      simp [hrk]
    · rw [if_neg (by simpa using hrk)]
      simp [hrk]

theorem GWF_addNote (gs : List (Nat × List Note)) (n : Note) (h : GWF gs) :
    GWF (addNoteToGroups gs n) := by
  obtain ⟨hnd, hpure⟩ := h
  unfold addNoteToGroups
  by_cases hany : gs.any (fun g => decide (g.1 = n.resourceId)) = true
  · rw [if_pos hany]
    constructor
    · have hkeys :
          (gs.map (fun g => if g.1 = n.resourceId then (g.1, g.2 ++ [n]) else g)).map
            (·.1) = gs.map (·.1) := by
        rw [List.map_map]
        apply List.map_congr_left
        intro g hg
        by_cases hk : g.1 = n.resourceId <;> simp [hk]
      rw [hkeys]
      exact hnd
    · intro g hg n2 hn2
      rcases List.mem_map.1 hg with ⟨g0, hg0, rfl⟩
      by_cases hk : g0.1 = n.resourceId
      · rw [if_pos hk] at hn2 ⊢
        rcases List.mem_append.1 hn2 with h2 | h2
        · exact hpure g0 hg0 n2 h2
        · rcases List.mem_singleton.1 h2 with rfl
          exact hk.symm
      · rw [if_neg hk] at hn2 ⊢
        exact hpure g0 hg0 n2 hn2
  · rw [if_neg hany]
    constructor
    · rw [List.map_append]
      apply List.nodup_append.2
      refine ⟨hnd, List.nodup_singleton _, ?_⟩
      intro a ha hb
      rcases List.mem_singleton.1 (by simpa using hb) with rfl
      rcases List.mem_map.1 ha with ⟨g, hg, hgk⟩
      have hfalse := List.any_eq_false.1 (Bool.not_eq_true _ ▸ hany) g hg
      exact hfalse (by simp [hgk])
    · intro g hg n2 hn2
      rcases List.mem_append.1 hg with h2 | h2
      · exact hpure g h2 n2 hn2
      · rcases List.mem_singleton.1 h2 with rfl
        rcases List.mem_singleton.1 hn2 with rfl
        rfl

theorem groupNotes_foldl (ns : List Note) :
    ∀ (gs : List (Nat × List Note)) (r : Nat),
      groupNotes r (ns.foldl addNoteToGroups gs) =
        groupNotes r gs ++ ns.filter (fun x => decide (x.resourceId = r)) := by
  induction ns with
  | nil => intro gs r; simp
  | cons n t ih =>
    intro gs r
    have hstep : (n :: t).foldl addNoteToGroups gs =
        t.foldl addNoteToGroups (addNoteToGroups gs n) := rfl
    rw [hstep, ih, groupNotes_addNote, List.filter_cons]
    by_cases h : n.resourceId = r
    · simp [h, List.append_assoc]
    · simp [h]

theorem GWF_foldl (ns : List Note) :
    ∀ gs, GWF gs → GWF (ns.foldl addNoteToGroups gs) := by
  induction ns with
  | nil => exact fun gs h => h
  | cons n t ih => exact fun gs h => ih _ (GWF_addNote gs n h)

theorem GWF_groupedNotes (s : Store) : GWF (groupedNotes s) :=
  GWF_foldl s.notes [] ⟨List.nodup_nil, by simp⟩

theorem filter_flattenGroups (gs : List (Nat × List Note)) (r : Nat)
    (h : GWF gs) :
    (flattenGroups gs).filter (fun x => decide (x.resourceId = r)) =
      groupNotes r gs := by
  induction gs with
  | nil => simp [flattenGroups, groupNotes, lookupGroup]
  | cons g t ih =>
    obtain ⟨hnd, hpure⟩ := h
    have hnd2 : (g.1 :: t.map (·.1)).Nodup := by simpa using hnd
    have hwt : GWF t :=
      ⟨(List.nodup_cons.1 hnd2).2, fun g2 hg2 => hpure g2 (List.mem_cons_of_mem g hg2)⟩
    have hflat : flattenGroups (g :: t) = g.2 ++ flattenGroups t := by
      simp [flattenGroups]
    rw [hflat, List.filter_append, ih hwt]
    by_cases hgr : g.1 = r
    · have hfil : g.2.filter (fun x => decide (x.resourceId = r)) = g.2 :=
        List.filter_eq_self.2 (fun x hx => by
          simp [hpure g (List.mem_cons_self g t) x hx, hgr])
      have hnone : groupNotes r t = [] := by
        have hmem : r ∉ t.map (·.1) := by
          intro hmem
          exact (List.nodup_cons.1 hnd2).1 (by rw [hgr]; exact hmem)
        simp [groupNotes, lookupGroup_eq_none_of_not_mem t r hmem]
      have hhead : groupNotes r (g :: t) = g.2 := by
        simp [groupNotes, lookupGroup, List.find?_cons, hgr]
      rw [hfil, hnone, hhead, List.append_nil]
    · have hfil : g.2.filter (fun x => decide (x.resourceId = r)) = [] :=
        List.filter_eq_nil_iff.2 (fun x hx => by
          simp [hpure g (List.mem_cons_self g t) x hx, hgr])
      have hhead : groupNotes r (g :: t) = groupNotes r t := by
        simp [groupNotes, lookupGroup, List.find?_cons, hgr]
      rw [hfil, hhead, List.nil_append]

theorem flattenGroups_perm (ns : List Note) :
    (flattenGroups (ns.foldl addNoteToGroups [])).Perm ns := by
  apply List.perm_iff_count.2
  intro x
  have hwf : GWF (ns.foldl addNoteToGroups []) :=
    GWF_foldl ns [] ⟨List.nodup_nil, by simp⟩
  have h1 : (flattenGroups (ns.foldl addNoteToGroups [])).filter
      (fun y => decide (y.resourceId = x.resourceId)) =
      ns.filter (fun y => decide (y.resourceId = x.resourceId)) := by
    rw [filter_flattenGroups _ _ hwf, groupNotes_foldl]
    simp [groupNotes, lookupGroup]
  have h2 := @List.count_filter Note _ _
    (fun y => decide (y.resourceId = x.resourceId)) x
    (flattenGroups (ns.foldl addNoteToGroups [])) (by simp)
  have h3 := @List.count_filter Note _ _
    (fun y => decide (y.resourceId = x.resourceId)) x ns (by simp)
  rw [← h2, h1, h3]

theorem nodup_ids_flattenGroups (ns : List Note)
    (h : (ns.map Note.id).Nodup) :
    ((flattenGroups (ns.foldl addNoteToGroups [])).map Note.id).Nodup :=
  (((flattenGroups_perm ns).map Note.id).nodup_iff).2 h

theorem idbAddList_ok [DecidableEq κ] (key : α → κ) :
    ∀ (xs acc : List α), ((acc ++ xs).map key).Nodup →
      idbAddList key acc xs = .ok (acc ++ xs) := by
  intro xs
  induction xs with
  | nil => intro acc h; simp [idbAddList]
  | cons x t ih =>
    intro acc h
    have hnotin : key x ∉ acc.map key := by
      have h2 : (acc.map key ++ key x :: t.map key).Nodup := by simpa using h
      have h3 := (List.nodup_cons.1 (List.nodup_middle.1 h2)).1
      intro hmem
      exact h3 (List.mem_append.2 (Or.inl hmem))
    have hfalse : acc.any (fun y => decide (key y = key x)) = false :=
      List.any_eq_false.2 (fun y hy => by
        simp only [decide_eq_true_eq]
        exact fun he => hnotin (he ▸ List.mem_map_of_mem key hy))
    have hadd : idbAdd key acc x = .ok (acc ++ [x]) := by
      simp [idbAdd, hfalse]
    have hstep : idbAddList key acc (x :: t) = idbAddList key (acc ++ [x]) t := by
      simp [idbAddList, hadd, Bind.bind, Except.bind]
    have hnd2 : (((acc ++ [x]) ++ t).map key).Nodup := by
      simpa [List.append_assoc] using h
    rw [hstep, ih (acc ++ [x]) hnd2]
    simp [List.append_assoc]

end QNEETStorage

/-- Dissecting a successful `Except` bind. -/
theorem except_bind_ok {ε α β : Type} {x : Except ε α} {f : α → Except ε β}
    {b : β} : (x >>= f) = .ok b ↔ ∃ a, x = .ok a ∧ f a = .ok b := by
  cases x <;> simp [Bind.bind, Except.bind]

/-! ## Claim C9 -/

/-- C9 (code bug): the claim states the documented export-clear-import
round trip, but `exportData()` always rejects — it awaits `getFavorites()`,
which throws a `TypeError` on the un-awaited `IDBRequest` — so the sequence
never completes, contradicting `exportData`'s own JSDoc. Importing the
snapshot `exportData` is documented to produce (`intendedExport`) does
reproduce every resource, favorite, download and setting, and for every
resource id the sequence of its notes — given that each collection's primary
keys are unique, which IndexedDB enforces for every store populated through
`add`. -/
theorem export_import_round_trip_code_bug (s : Store) (now : String)
    (hr : (s.resources.map Resource.id).Nodup)
    (hf : (s.favorites.map Favorite.id).Nodup)
    (hn : (s.notes.map Note.id).Nodup)
    (hd : (s.downloads.map Download.id).Nodup)
    (hst : (s.settings.map Setting.key).Nodup) :
    QNEETStorage.exportData s = .error "TypeError" ∧
    ∃ s2, QNEETStorage.importData (QNEETStorage.intendedExport s)
        (QNEETStorage.clearAllData s) now = .ok s2 ∧
      s2.resources = s.resources ∧
      QNEETStorage.favoriteIds s2 = QNEETStorage.favoriteIds s ∧
      (∀ r, QNEETStorage.notesFor s2 r = QNEETStorage.notesFor s r) ∧
      s2.downloads = s.downloads ∧
      s2.settings = s.settings := by
  refine ⟨rfl, ?_⟩
  have e1 : idbAddList Resource.id [] s.resources = .ok s.resources :=
    QNEETStorage.idbAddList_ok Resource.id s.resources [] (by simpa using hr)
  have hfavkeys :
      (((QNEETStorage.favoriteIds s).map
        (fun i => (⟨i, now⟩ : Favorite))).map Favorite.id).Nodup := by
    have : ((QNEETStorage.favoriteIds s).map
        (fun i => (⟨i, now⟩ : Favorite))).map Favorite.id =
        QNEETStorage.favoriteIds s := by
      rw [List.map_map]
      exact List.map_id _
    rw [this]
    simpa [QNEETStorage.favoriteIds] using hf
  have e2 : idbAddList Favorite.id []
      ((QNEETStorage.favoriteIds s).map (fun i => (⟨i, now⟩ : Favorite))) =
      .ok ((QNEETStorage.favoriteIds s).map (fun i => (⟨i, now⟩ : Favorite))) :=
    QNEETStorage.idbAddList_ok Favorite.id _ [] (by simpa using hfavkeys)
  have e3 : idbAddList Note.id []
      (QNEETStorage.flattenGroups (QNEETStorage.groupedNotes s)) =
      .ok (QNEETStorage.flattenGroups (QNEETStorage.groupedNotes s)) :=
    QNEETStorage.idbAddList_ok Note.id _ []
      (by simpa using QNEETStorage.nodup_ids_flattenGroups s.notes hn)
  have e4 : idbAddList Download.id [] s.downloads = .ok s.downloads :=
    QNEETStorage.idbAddList_ok Download.id s.downloads [] (by simpa using hd)
  have e5 : idbAddList Setting.key [] s.settings = .ok s.settings :=
    QNEETStorage.idbAddList_ok Setting.key s.settings [] (by simpa using hst)
  refine ⟨⟨s.resources,
    (QNEETStorage.favoriteIds s).map (fun i => (⟨i, now⟩ : Favorite)),
    QNEETStorage.flattenGroups (QNEETStorage.groupedNotes s),
    s.downloads, s.settings⟩, ?_, rfl, ?_, ?_, rfl, rfl⟩
  · simp [QNEETStorage.importData, QNEETStorage.intendedExport,
      QNEETStorage.clearAllData, QNEETStorage.importCollection,
      e1, e2, e3, e4, e5, Bind.bind, Except.bind]
  · simp [QNEETStorage.favoriteIds, List.map_map]
  · intro r
    show (QNEETStorage.flattenGroups (QNEETStorage.groupedNotes s)).filter
        (fun n => decide (n.resourceId = r)) = QNEETStorage.notesFor s r
    rw [QNEETStorage.filter_flattenGroups _ _ (QNEETStorage.GWF_groupedNotes s)]
    show QNEETStorage.groupNotes r (s.notes.foldl QNEETStorage.addNoteToGroups [])
      = QNEETStorage.notesFor s r
    rw [QNEETStorage.groupNotes_foldl]
    simp [QNEETStorage.groupNotes, QNEETStorage.lookupGroup, QNEETStorage.notesFor]

/-- A concrete populated store for the round-trip witness. -/
def stRT : Store :=
  ⟨[⟨1, "Physics Formula Sheet", "formula-sheets", "Physics"⟩],
   [⟨1, "d1"⟩, ⟨3, "d3"⟩],
   [⟨10, 1, "first note", "d"⟩, ⟨11, 3, "other note", "d"⟩,
    ⟨12, 1, "second note", "d"⟩],
   [⟨20, 1, "Physics Formula Sheet", 100⟩],
   [⟨"theme", "dark"⟩]⟩

/-- The image of `stRT` under export-clear-import: favorites re-dated to
the time of the import, notes re-inserted grouped by resource
(per-resource order preserved), everything else identical. -/
def stRTimported : Store :=
  ⟨[⟨1, "Physics Formula Sheet", "formula-sheets", "Physics"⟩],
   [⟨1, "NOW"⟩, ⟨3, "NOW"⟩],
   [⟨10, 1, "first note", "d"⟩, ⟨12, 1, "second note", "d"⟩,
    ⟨11, 3, "other note", "d"⟩],
   [⟨20, 1, "Physics Formula Sheet", 100⟩],
   [⟨"theme", "dark"⟩]⟩

/-- C9 witness: `exportData` rejecting, and the documented round trip
evaluated on `stRT`. -/
theorem export_import_round_trip_code_bug_witness :
    QNEETStorage.exportData stRT = .error "TypeError" ∧
    QNEETStorage.importData (QNEETStorage.intendedExport stRT)
      (QNEETStorage.clearAllData stRT) "NOW" = .ok stRTimported ∧
    QNEETStorage.favoriteIds stRTimported = QNEETStorage.favoriteIds stRT ∧
    QNEETStorage.notesFor stRTimported 1 = QNEETStorage.notesFor stRT 1 ∧
    QNEETStorage.notesFor stRTimported 3 = QNEETStorage.notesFor stRT 3 ∧
    stRTimported.downloads = stRT.downloads ∧
    stRTimported.settings = stRT.settings := by
  obtain ⟨hex, s2, h, hres, hfav, hnotes, hdl, hset⟩ :=
    export_import_round_trip_code_bug stRT "NOW" (by decide) (by decide)
      (by decide) (by decide) (by decide)
  have hc : QNEETStorage.importData (QNEETStorage.intendedExport stRT)
      (QNEETStorage.clearAllData stRT) "NOW" = .ok stRTimported := rfl
  rw [h] at hc
  have hs2 : s2 = stRTimported := Except.ok.inj hc
  subst hs2
  exact ⟨hex, h, hfav, hnotes 1, hnotes 3, hdl, hset⟩

/-! ## Claim C10 -/

/-- C10: `importData` clears all five collections before inserting anything:
whenever it succeeds, every collection whose snapshot field is absent ends
up empty — whatever was stored before is erased — and importing the empty
snapshot wipes the whole store. -/
theorem import_clears_missing_collections
    (data : QNEETStorage.Snapshot) (s s2 : Store) (now : String)
    (h : QNEETStorage.importData data s now = .ok s2) :
    (data.resources = none → s2.resources = []) ∧
    (data.favorites = none → s2.favorites = []) ∧
    (data.notes = none → s2.notes = []) ∧
    (data.downloads = none → s2.downloads = []) ∧
    (data.settings = none → s2.settings = []) ∧
    QNEETStorage.importData QNEETStorage.emptySnapshot s now =
      .ok ⟨[], [], [], [], []⟩ := by
  have hempty : QNEETStorage.importData QNEETStorage.emptySnapshot s now =
      .ok ⟨[], [], [], [], []⟩ := rfl
  simp only [QNEETStorage.importData, QNEETStorage.clearAllData] at h
  rcases except_bind_ok.1 h with ⟨rs, h1, h⟩
  rcases except_bind_ok.1 h with ⟨favs, h2, h⟩
  rcases except_bind_ok.1 h with ⟨ns2, h3, h⟩
  rcases except_bind_ok.1 h with ⟨ds, h4, h⟩
  rcases except_bind_ok.1 h with ⟨sets, h5, h⟩
  have hs2 : s2 = ⟨rs, favs, ns2, ds, sets⟩ := (Except.ok.inj h).symm
  subst hs2
  refine ⟨?_, ?_, ?_, ?_, ?_, hempty⟩
  · intro hni; rw [hni] at h1; exact (Except.ok.inj h1).symm
  · intro hni; rw [hni] at h2; exact (Except.ok.inj h2).symm
  · intro hni; rw [hni] at h3; exact (Except.ok.inj h3).symm
  · intro hni; rw [hni] at h4; exact (Except.ok.inj h4).symm
  · intro hni; rw [hni] at h5; exact (Except.ok.inj h5).symm

/-- A snapshot carrying only a resources field. -/
def snapOnlyResources : QNEETStorage.Snapshot :=
  ⟨some [⟨1, "Physics Formula Sheet", "formula-sheets", "Physics"⟩],
   none, none, none, none⟩

/-- The store produced by importing `snapOnlyResources` over `stRT`. -/
def stAfterPartialImport : Store :=
  ⟨[⟨1, "Physics Formula Sheet", "formula-sheets", "Physics"⟩], [], [], [], []⟩

/-- C10 witness: importing over the populated `stRT` a snapshot missing the
favorites/notes/downloads/settings fields leaves those collections empty,
and importing the empty snapshot wipes `stRT` entirely. -/
theorem import_clears_missing_collections_witness :
    stAfterPartialImport.favorites = [] ∧
    stAfterPartialImport.notes = [] ∧
    stAfterPartialImport.downloads = [] ∧
    stAfterPartialImport.settings = [] ∧
    QNEETStorage.importData QNEETStorage.emptySnapshot stRT "NOW" =
      .ok ⟨[], [], [], [], []⟩ := by
  have h := import_clears_missing_collections snapOnlyResources stRT
    stAfterPartialImport "NOW" rfl
  exact ⟨h.2.1 rfl, h.2.2.1 rfl, h.2.2.2.1 rfl, h.2.2.2.2.1 rfl, h.2.2.2.2.2⟩
